import Mathlib

/-! Shallow embedding of the calendar month view of the WorkMatrix web
application (`src/pages/CalendarView.tsx`): month-grid construction,
fact attachment (attendance records, leave spans, holidays), the
per-day priority/status resolver, and the monthly aggregate counters.

Dates are modelled in the proleptic Gregorian calendar, matching the
semantics of the JavaScript `Date` object on civil dates (the code only
ever manipulates local midnights of civil dates, so a pure calendar-day
model is faithful).
-/

namespace WorkMatrix

/-- Gregorian leap-year rule, as implemented by JS `Date`. -/
def isLeap (y : Nat) : Bool := (y % 4 == 0 && !(y % 100 == 0)) || (y % 400 == 0)

/-- Number of days of month `m` (1-based) of year `y`;
models `new Date(y, m, 0).getDate()`. -/
def daysInMonth (y m : Nat) : Nat :=
  if m = 2 then (if isLeap y then 29 else 28)
  else if m = 4 ∨ m = 6 ∨ m = 9 ∨ m = 11 then 30
  else 31

/-- Total days of months `1..m` of year `y`. -/
def daysUpTo (y : Nat) : Nat → Nat
  | 0 => 0
  | m + 1 => daysUpTo y m + daysInMonth y (m + 1)

/-- Number of leap years in `[0, y)` (year 0 is a leap year). -/
def leapCount (y : Nat) : Nat :=
  if y = 0 then 0 else (y - 1) / 4 - (y - 1) / 100 + (y - 1) / 400 + 1

/-- A civil (proleptic Gregorian) date; `m` is 1-based. -/
structure CDate where
  y : Nat
  m : Nat
  d : Nat
deriving DecidableEq

/-- Day count since 0000-01-01 (proleptic Gregorian), i.e. the day-granular
timestamp a JS `Date` at local midnight carries. -/
def dayNumber (dt : CDate) : Nat :=
  365 * dt.y + leapCount dt.y + daysUpTo dt.y (dt.m - 1) + (dt.d - 1)

/-- Weekday with Sunday = 0, models `Date.prototype.getDay`. -/
def weekday (dt : CDate) : Nat := (dayNumber dt + 6) % 7

/-- Well-formedness of a civil date. -/
def ValidDate (dt : CDate) : Prop :=
  1 ≤ dt.m ∧ dt.m ≤ 12 ∧ 1 ≤ dt.d ∧ dt.d ≤ daysInMonth dt.y dt.m

/-! Section: Decimal rendering and ISO date strings -/

/-- The decimal digit character for `n` (meaningful for `n ≤ 9`). -/
def digitChar (n : Nat) : Char := Char.ofNat (48 + n)

/-- Decimal digit characters of `n`, most significant first; the first
argument is recursion fuel (any fuel `≥` number of digits gives all digits). -/
def natAux : Nat → Nat → List Char
  | 0, _ => []
  | fuel + 1, n => if n = 0 then [] else natAux fuel (n / 10) ++ [digitChar (n % 10)]

/-- Decimal rendering of `n` as a character list: models JS `String(n)`. -/
def natChars (n : Nat) : List Char := if n = 0 then ['0'] else natAux n n

/-- Models `String(n).padStart(2, "0")` of the source's `isoFor` helper. -/
def pad2c (n : Nat) : List Char := if n < 10 then ['0', digitChar n] else natChars n

/-- The zero-padded 4-digit year field of `Date.prototype.toISOString`
(positional digits; for `y ≤ 9999` this is exactly the padded decimal form). -/
def pad4c (y : Nat) : List Char :=
  [digitChar (y / 1000), digitChar (y / 100 % 10), digitChar (y / 10 % 10), digitChar (y % 10)]

/-- The 6-digit expanded-year field `toISOString` uses for years `≥ 10000`. -/
def pad6c (y : Nat) : List Char :=
  [digitChar (y / 100000 % 10), digitChar (y / 10000 % 10), digitChar (y / 1000 % 10),
   digitChar (y / 100 % 10), digitChar (y / 10 % 10), digitChar (y % 10)]

/-- Source helper `isoFor(y, m0, d)`: `` `${y}-${String(m0+1).padStart(2,"0")}-${String(d).padStart(2,"0")}` ``
(`m0` is the 0-based month). Note the year is *not* zero padded. -/
def isoFor (y m0 d : Nat) : String :=
  ⟨natChars y ++ '-' :: pad2c (m0 + 1) ++ '-' :: pad2c d⟩

/-- Models `d.toISOString().slice(0, 10)` on the `Date` holding civil date `dt`
(local time = UTC model). For `dt.y ≤ 9999` this is `YYYY-MM-DD`; for larger
years `toISOString` switches to the expanded `+YYYYYY-…` form, whose first
ten characters are `+YYYYYY-MM`. -/
def isoSlice (dt : CDate) : String :=
  if dt.y < 10000 then ⟨pad4c dt.y ++ '-' :: pad2c dt.m ++ '-' :: pad2c dt.d⟩
  else ⟨'+' :: pad6c dt.y ++ '-' :: pad2c dt.m⟩

/-- Numeric value of a decimal digit character (code points 48–57). -/
def digitVal (c : Char) : Option Nat :=
  if 48 ≤ c.toNat ∧ c.toNat ≤ 57 then some (c.toNat - 48) else none

/-- Parses the `[-MM[-DD]]` remainder of an ECMAScript Date Time String
Format date whose year digits already yielded `y`: an omitted month or day
defaults to 01, an out-of-range month or day invalidates the whole date. -/
def parseYMD (y : Nat) : List Char → Option CDate
  | [] => some ⟨y, 1, 1⟩
  | [h1, m1, m2] =>
    if h1 = '-' then
      match digitVal m1, digitVal m2 with
      | some a, some b =>
        let mv := a * 10 + b
        if 1 ≤ mv ∧ mv ≤ 12 then some ⟨y, mv, 1⟩ else none
      | _, _ => none
    else none
  | [h1, m1, m2, h2, d1, d2] =>
    if h1 = '-' ∧ h2 = '-' then
      match digitVal m1, digitVal m2, digitVal d1, digitVal d2 with
      | some a, some b, some c, some e =>
        let mv := a * 10 + b
        let dv := c * 10 + e
        if 1 ≤ mv ∧ mv ≤ 12 ∧ 1 ≤ dv ∧ dv ≤ daysInMonth y mv then some ⟨y, mv, dv⟩
        else none
      | _, _, _, _ => none
    else none
  | _ => none

/-- Parses a plain (four-digit-year) `YYYY`, `YYYY-MM` or `YYYY-MM-DD` date. -/
def parsePlain : List Char → Option CDate
  | y1 :: y2 :: y3 :: y4 :: rest =>
    match digitVal y1, digitVal y2, digitVal y3, digitVal y4 with
    | some a, some b, some c, some e =>
      parseYMD (((a * 10 + b) * 10 + c) * 10 + e) rest
    | _, _, _, _ => none
  | _ => none

/-- Parses a six-digit expanded year `YYYYYY[-MM[-DD]]` date (sign handled by
the caller), without the time-value range check. -/
def parseExp6 : List Char → Option CDate
  | y1 :: y2 :: y3 :: y4 :: y5 :: y6 :: rest =>
    match digitVal y1, digitVal y2, digitVal y3, digitVal y4, digitVal y5, digitVal y6 with
    | some a, some b, some c, some e, some f, some g =>
      parseYMD (((((a * 10 + b) * 10 + c) * 10 + e) * 10 + f) * 10 + g) rest
    | _, _, _, _, _, _ => none
  | _ => none

/-- Is this date within the ECMAScript maximum time value (midnight of
+275760-09-13, the largest representable `Date`)? -/
def jsMaxOk (dt : CDate) : Bool :=
  dt.y < 275760 || (dt.y == 275760 && (dt.m < 9 || (dt.m == 9 && dt.d ≤ 13)))

/-- Is the magnitude date of a negative expanded year within the ECMAScript
minimum time value (midnight of -271821-04-20)? A signed year `-000000` is
itself invalid. -/
def jsMinOk (dt : CDate) : Bool :=
  1 ≤ dt.y && (dt.y < 271821 || (dt.y == 271821 && (4 < dt.m || (dt.m == 4 && 20 ≤ dt.d))))

/-- Parses a `+YYYYYY[-MM[-DD]]` expanded-year date after the `+` sign,
enforcing the maximum `Date` time value. -/
def parseExpanded (l : List Char) : Option CDate :=
  match parseExp6 l with
  | some dt => if jsMaxOk dt then some dt else none
  | none => none

/-- Models `new Date(s + "T00:00:00")` on the ECMAScript Date Time String
Format for dates of year 0 and later: the date-only forms `YYYY`, `YYYY-MM`,
`YYYY-MM-DD` and the expanded-year forms `+YYYYYY`, `+YYYYYY-MM`,
`+YYYYYY-MM-DD` (omitted month/day default to 01), with in-range months,
days and time values; every other string yields an invalid date (`none`).
The negative expanded-year forms `-YYYYYY…` — the only remaining valid
date strings — are recognised separately by `parseNeg`, since their BCE-era
dates are outside this embedding's `CDate`. -/
def parseIso (s : String) : Option CDate :=
  match s.data with
  | [] => none
  | c :: rest => if c = '+' then parseExpanded rest else parsePlain (c :: rest)

/-- Recognises the valid negative expanded-year date strings
`-YYYYYY[-MM[-DD]]` (returning the magnitude date), enforcing the minimum
`Date` time value. A string is rejected by `new Date(s + "T00:00:00")`
exactly when both `parseIso s = none` and `parseNeg s = none`. -/
def parseNeg (s : String) : Option CDate :=
  match s.data with
  | [] => none
  | c :: rest =>
    if c = '-' then
      match parseExp6 rest with
      | some dt => if jsMinOk dt then some dt else none
      | none => none
    else none

/-- ASCII lower-casing of one character (the fragment of JS `toLowerCase`
exercised by leave-type strings). -/
def lowerChar (c : Char) : Char :=
  if 'A' ≤ c ∧ c ≤ 'Z' then Char.ofNat (c.toNat + 32) else c

/-- JS `s.toLowerCase()` (ASCII fragment). -/
def toLowerStr (s : String) : String := ⟨s.data.map lowerChar⟩

/-- Does `hay` start with `needle`? -/
def listStartsWith : List Char → List Char → Bool
  | _, [] => true
  | [], _ :: _ => false
  | a :: as, b :: bs => a == b && listStartsWith as bs

/-- JS `hay.includes(needle)` on character lists. -/
def listContainsSub : List Char → List Char → Bool
  | [], needle => needle.isEmpty
  | a :: as, needle => listStartsWith (a :: as) needle || listContainsSub as needle

/-! Section: Data model (`CalendarView.tsx` types) -/

/-- Type `AttendanceDoc`: one attendance record; `status` is optional in the source
(`status?: "present" | "absent" | "half-day" | "wfh" | string`). -/
structure AttendanceDoc where
  id : String
  date : String
  status : Option String
  note : Option String
deriving DecidableEq

/-- Type `LeaveDoc`: one leave request with an inclusive `[fromDate, toDate]` span. -/
structure LeaveDoc where
  id : String
  type : String
  fromDate : String
  toDate : String
  status : String
  reason : Option String
deriving DecidableEq

/-- Type `Holiday`: a global holiday date. -/
structure Holiday where
  id : Option String
  date : String
  name : String
deriving DecidableEq

/-- Type `DayInfo`: one grid cell; `iso = ""` marks a blank padding cell. The
optional TS fields `attendance?`, `leaves?`, `holiday?`, `isSunday?` are
modelled with their falsy defaults (`none`, `[]`, `false`), which the
consuming code never distinguishes from the absent field. -/
structure DayInfo where
  iso : String
  dayNumber : Option Nat := none
  attendance : Option AttendanceDoc := none
  leaves : List LeaveDoc := []
  holiday : Option Holiday := none
  isSunday : Bool := false
deriving DecidableEq

/-- The lucide icon placed on a resolved cell. -/
inductive IconKind where
  | star | sun | calendarX | home | xCircle | clock | checkCircle
deriving DecidableEq

/-- The record returned by `getPriorityForDay` for a matched cell. -/
structure PriorityInfo where
  type : String
  label : String
  colorClass : String
  bgClass : String
  icon : IconKind
deriving DecidableEq

/-! Section: Month grid construction and fact attachment -/

/-- The JS `Date(year, …)` constructor maps year arguments `0–99` to
`1900 + year`. -/
def jsYear (y : Nat) : Nat := if y < 100 then y + 1900 else y

/-- Effective (normalized) year of `new Date(year, m0, 1)`. -/
def effYear (y m0 : Nat) : Nat := jsYear y + m0 / 12

/-- Effective 1-based month of `new Date(year, m0, 1)`. -/
def effMonth (m0 : Nat) : Nat := m0 % 12 + 1

/-- A blank padding cell. -/
def blankCell : DayInfo := { iso := "" }

/-- The bare month grid of `monthGrid` before fact attachment: leading blanks
up to the weekday of day 1, one cell per day of the month, padded with
trailing blanks while shorter than 42. -/
def buildGrid (year m0 : Nat) : List DayInfo :=
  let firstDayIndex := weekday ⟨effYear year m0, effMonth m0, 1⟩
  let totalDays := daysInMonth (effYear year m0) (effMonth m0)
  let base := List.replicate firstDayIndex blankCell ++
    (List.range totalDays).map (fun i => { iso := isoFor year m0 (i + 1), dayNumber := some (i + 1) })
  base ++ List.replicate (42 - base.length) blankCell

/-- Models `holidays.forEach(h => map.get(h.date).holiday = h)`: the last matching
holiday in input order wins. -/
def holFor (hols : List Holiday) (iso : String) : Option Holiday :=
  hols.foldl (fun acc h => if h.date = iso then some h else acc) none

/-- Models `attendance.forEach(a => map.get(a.date).attendance = a)`: the last
matching record in input order wins. -/
def attFor (atts : List AttendanceDoc) (iso : String) : Option AttendanceDoc :=
  atts.foldl (fun acc a => if a.date = iso then some a else acc) none

/-- One day later. -/
def nextDay (dt : CDate) : CDate :=
  if dt.d < daysInMonth dt.y dt.m then ⟨dt.y, dt.m, dt.d + 1⟩
  else if dt.m < 12 then ⟨dt.y, dt.m + 1, 1⟩
  else ⟨dt.y + 1, 1, 1⟩

/-- Advance a date by `n` days. -/
def advance (dt : CDate) : Nat → CDate
  | 0 => dt
  | n + 1 => advance (nextDay dt) n

/-- The date strings generated by the leave-expansion loop
`for (let d = new Date(from); d <= to; d.setDate(d.getDate()+1))
{ iso = d.toISOString().slice(0,10); … }`: one `isoSlice` per day of the
inclusive span, empty when either bound fails to parse (an invalid `Date`
compares false) or the span is reversed. Bounds are parsed by `parseIso`
(every Date Time String Format date of year ≥ 0); a span whose bound is a
valid negative expanded-year string (`parseNeg`-accepted, a BCE-era date no
leave record carries) is not expanded by this model, and every theorem keeps
such bounds out by hypothesis. -/
def leaveDates (L : LeaveDoc) : List String :=
  match parseIso L.fromDate, parseIso L.toDate with
  | some f, some t =>
    if dayNumber f ≤ dayNumber t then
      (List.range (dayNumber t - dayNumber f + 1)).map (fun i => isoSlice (advance f i))
    else []
  | _, _ => []

/-- Fact attachment for one cell: holidays and attendance by exact date-string
match (last wins), leaves by membership of the cell's date in the expanded
span, and the Sunday flag from `new Date(iso + "T00:00:00").getDay() === 0`
(false when the cell's iso string does not parse). Blank cells are untouched
(they are never put into `mapByIso`). -/
def attachCell (hols : List Holiday) (atts : List AttendanceDoc) (lvs : List LeaveDoc)
    (cell : DayInfo) : DayInfo :=
  if cell.iso = "" then cell
  else
    { cell with
      holiday := holFor hols cell.iso
      attendance := attFor atts cell.iso
      leaves := lvs.filter (fun L => (leaveDates L).contains cell.iso)
      isSunday := match parseIso cell.iso with
        | some dt => weekday dt == 0
        | none => false }

/-- The fully derived month grid (`monthGrid` memo of the source). -/
def monthGrid (year m0 : Nat) (atts : List AttendanceDoc) (lvs : List LeaveDoc)
    (hols : List Holiday) : List DayInfo :=
  (buildGrid year m0).map (attachCell hols atts lvs)

/-! Section: Status resolver and monthly aggregates -/

/-- Source function `getPriorityForDay`: reduce a cell's facts to at most one visual status,
checking in order holiday, Sunday, leave, absent, half-day, present;
`none` for blank cells and for cells matching no rule. -/
def getPriorityForDay (day : DayInfo) : Option PriorityInfo :=
  if day.iso = "" then none
  else match day.holiday with
  | some h =>
    some { type := "holiday", label := h.name, colorClass := "text-amber-600",
           bgClass := "bg-muted/50", icon := .star }
  | none =>
    if day.isSunday then
      some { type := "sunday", label := "Sunday", colorClass := "text-muted-foreground",
             bgClass := "bg-muted/30", icon := .sun }
    else if 0 < day.leaves.length then
      let isWfh := day.leaves.any (fun l => listContainsSub (toLowerStr l.type).data ("wfh").data)
      some { type := "leave", label := String.intercalate (", ") (day.leaves.map (·.type)),
             colorClass := "text-blue-600", bgClass := "bg-muted/50",
             icon := if isWfh then .home else .calendarX }
    else match day.attendance with
    | some a =>
      if a.status = some ("absent") then
        some { type := "absent", label := "Absent", colorClass := "text-rose-600",
               bgClass := "bg-muted/50", icon := .xCircle }
      else if a.status = some ("half-day") then
        some { type := "half-day", label := "Half Day", colorClass := "text-amber-600",
               bgClass := "bg-muted/50", icon := .clock }
      else if a.status = some ("present") then
        some { type := "present", label := "Present", colorClass := "text-emerald-600",
               bgClass := "bg-muted/50", icon := .checkCircle }
      else none
    | none => none

/-- The monthly aggregate counters of the `stats` memo. -/
structure Stats where
  totalDays : Nat
  present : Nat
  absent : Nat
  half : Nat
  leaveDays : Nat
  holidaysCount : Nat
  sundays : Nat
deriving DecidableEq

/-- One iteration of the `stats` forEach: blank cells are skipped; the
resolved type feeds every counter except `sundays`, which tallies the raw
`isSunday` flag. -/
def statsStep (s : Stats) (d : DayInfo) : Stats :=
  if d.iso = "" then s
  else
    let p := getPriorityForDay d
    let s := { s with totalDays := s.totalDays + 1 }
    let s := if (p.map (·.type)) = some ("present") then { s with present := s.present + 1 } else s
    let s := if (p.map (·.type)) = some ("absent") then { s with absent := s.absent + 1 } else s
    let s := if (p.map (·.type)) = some ("half-day") then { s with half := s.half + 1 } else s
    let s := if (p.map (·.type)) = some ("leave") then { s with leaveDays := s.leaveDays + 1 } else s
    let s := if (p.map (·.type)) = some ("holiday") then { s with holidaysCount := s.holidaysCount + 1 } else s
    let s := if d.isSunday then { s with sundays := s.sundays + 1 } else s
    s

/-- The `stats` memo: fold the counters over the displayed grid. -/
def stats (grid : List DayInfo) : Stats :=
  grid.foldl statsStep ⟨0, 0, 0, 0, 0, 0, 0⟩

/-- Number of blank cells before the first real day cell of a grid. -/
def countLeadingBlanks (grid : List DayInfo) : Nat :=
  (grid.takeWhile (fun c => c.iso == "")).length

/-- The resolved status tag of a cell (`getPriorityForDay(d)?.type`). -/
def resolvedType (d : DayInfo) : Option String :=
  (getPriorityForDay d).map (·.type)

/-- Is this a real (non-blank) day cell? -/
def isRealCell (d : DayInfo) : Bool := !(d.iso == "")

/-- The `PriorityInfo` record of the holiday branch. -/
def holidayPriority (h : Holiday) : PriorityInfo :=
  { type := "holiday", label := h.name, colorClass := "text-amber-600",
    bgClass := "bg-muted/50", icon := .star }

/-- The `PriorityInfo` record of the Sunday branch. -/
def sundayPriority : PriorityInfo :=
  { type := "sunday", label := "Sunday", colorClass := "text-muted-foreground",
    bgClass := "bg-muted/30", icon := .sun }

/-- The `PriorityInfo` record of the leave branch for a given leave list. -/
def leavePriority (ls : List LeaveDoc) : PriorityInfo :=
  { type := "leave", label := String.intercalate (", ") (ls.map LeaveDoc.type),
    colorClass := "text-blue-600", bgClass := "bg-muted/50",
    icon := if ls.any (fun l => listContainsSub (toLowerStr l.type).data ("wfh").data)
            then .home else .calendarX }

/-- Two leave requests that agree on every field except possibly `status`. -/
def sameButStatus (a b : LeaveDoc) : Prop :=
  a.id = b.id ∧ a.type = b.type ∧ a.fromDate = b.fromDate ∧
  a.toDate = b.toDate ∧ a.reason = b.reason

/-- The observable (status-independent) content of a grid cell coincides:
same iso, day number, attendance, holiday, Sunday flag, the attached leave
lists are pointwise status-variants of each other, and the resolved
priority (type, label, colors, icon) is identical. -/
def cellObsEq (c1 c2 : DayInfo) : Prop :=
  c1.iso = c2.iso ∧ c1.dayNumber = c2.dayNumber ∧ c1.attendance = c2.attendance ∧
  c1.holiday = c2.holiday ∧ c1.isSunday = c2.isSunday ∧
  List.Forall₂ sameButStatus c1.leaves c2.leaves ∧
  getPriorityForDay c1 = getPriorityForDay c2

/-! Section: Calendar arithmetic lemmas -/

theorem daysInMonth_pos (y m : Nat) : 1 ≤ daysInMonth y m := by
  unfold daysInMonth; split_ifs <;> omega

theorem daysInMonth_le (y m : Nat) : daysInMonth y m ≤ 31 := by
  unfold daysInMonth; split_ifs <;> omega

theorem isLeap_iff (y : Nat) :
    isLeap y = true ↔ (y % 4 = 0 ∧ y % 100 ≠ 0) ∨ y % 400 = 0 := by
  simp [isLeap]

set_option maxHeartbeats 1000000 in
theorem leapCount_succ (y : Nat) :
    leapCount (y + 1) = leapCount y + (if isLeap y then 1 else 0) := by
  rcases h : isLeap y with _ | _
  · have h' : ¬ ((y % 4 = 0 ∧ y % 100 ≠ 0) ∨ y % 400 = 0) := by
      rw [← isLeap_iff, h]; simp
    simp only [leapCount, h]
    split_ifs <;> first | exact (‹False› : False).elim | omega
  · have h' : (y % 4 = 0 ∧ y % 100 ≠ 0) ∨ y % 400 = 0 := (isLeap_iff y).mp h
    simp only [leapCount, h, if_true]
    split_ifs <;> first | exact (‹False› : False).elim | omega

theorem leapCount_mono : Monotone leapCount := by
  apply monotone_nat_of_le_succ
  intro n
  rw [leapCount_succ]
  split_ifs <;> omega

theorem daysUpTo_mono (y : Nat) : Monotone (daysUpTo y) := by
  apply monotone_nat_of_le_succ
  intro n
  have := daysInMonth_pos y (n + 1)
  simp only [daysUpTo]
  omega

theorem daysUpTo_sub_one (y m : Nat) (hm : 1 ≤ m) :
    daysUpTo y m = daysUpTo y (m - 1) + daysInMonth y m := by
  obtain ⟨k, rfl⟩ : ∃ k, m = k + 1 := ⟨m - 1, by omega⟩
  simp [daysUpTo]

theorem daysUpTo_eleven (y : Nat) :
    daysUpTo y 11 = 334 + (if isLeap y then 1 else 0) := by
  rcases h : isLeap y with _ | _ <;>
    simp [daysUpTo, daysInMonth, h]

/-- Within one year the day offset is below the year's length. -/
theorem offset_lt {dt : CDate} (h : ValidDate dt) :
    daysUpTo dt.y (dt.m - 1) + (dt.d - 1) < 365 + (if isLeap dt.y then 1 else 0) := by
  obtain ⟨y, m, d⟩ := dt
  obtain ⟨hm1, hm2, hd1, hd2⟩ := h
  simp only [ValidDate] at *
  interval_cases m <;>
    rcases hL : isLeap y with _ | _ <;>
      simp_all [daysUpTo, daysInMonth] <;> omega

theorem dayNumber_first (y : Nat) : dayNumber ⟨y, 1, 1⟩ = 365 * y + leapCount y := by
  simp [dayNumber, daysUpTo]

theorem dayNumber_nextDay {dt : CDate} (h : ValidDate dt) :
    dayNumber (nextDay dt) = dayNumber dt + 1 := by
  obtain ⟨hm1, hm2, hd1, hd2⟩ := h
  unfold nextDay
  split_ifs with h1 h2
  · simp only [dayNumber]; omega
  · have hsum : daysUpTo dt.y dt.m = daysUpTo dt.y (dt.m - 1) + daysInMonth dt.y dt.m :=
      daysUpTo_sub_one _ _ hm1
    simp only [dayNumber, Nat.add_sub_cancel]
    omega
  · have hm : dt.m = 12 := by omega
    have hdim : daysInMonth dt.y 12 = 31 := by simp [daysInMonth]
    have h11 : daysUpTo dt.y 11 = 334 + (if isLeap dt.y then 1 else 0) := daysUpTo_eleven _
    have hsucc := leapCount_succ dt.y
    rw [hm] at h1 hd2
    have e1 : dayNumber ⟨dt.y + 1, 1, 1⟩ = 365 * (dt.y + 1) + leapCount (dt.y + 1) :=
      dayNumber_first _
    have e2 : dayNumber dt = 365 * dt.y + leapCount dt.y + daysUpTo dt.y 11 + (dt.d - 1) := by
      show 365 * dt.y + leapCount dt.y + daysUpTo dt.y (dt.m - 1) + (dt.d - 1) = _
      rw [hm]
    split_ifs at h11 hsucc <;> omega

theorem nextDay_valid {dt : CDate} (h : ValidDate dt) : ValidDate (nextDay dt) := by
  obtain ⟨hm1, hm2, hd1, hd2⟩ := h
  unfold nextDay ValidDate
  split_ifs with h1 h2 <;> refine ⟨?_, ?_, ?_, ?_⟩ <;> simp <;>
    first | omega | exact daysInMonth_pos _ _

theorem advance_valid {dt : CDate} (h : ValidDate dt) (n : Nat) :
    ValidDate (advance dt n) := by
  induction n generalizing dt with
  | zero => exact h
  | succ k ih => exact ih (nextDay_valid h)

theorem dayNumber_advance {dt : CDate} (h : ValidDate dt) (n : Nat) :
    dayNumber (advance dt n) = dayNumber dt + n := by
  induction n generalizing dt with
  | zero => rfl
  | succ k ih =>
    have := ih (nextDay_valid h)
    simp only [advance] at *
    rw [this, dayNumber_nextDay h]
    omega

theorem dayNumber_year_le {dt : CDate} : dayNumber ⟨dt.y, 1, 1⟩ ≤ dayNumber dt := by
  simp only [dayNumber, daysUpTo]
  omega

theorem dayNumber_lt_next_year {dt : CDate} (h : ValidDate dt) :
    dayNumber dt < dayNumber ⟨dt.y + 1, 1, 1⟩ := by
  have hoff := offset_lt h
  have hsucc := leapCount_succ dt.y
  rw [dayNumber_first]
  simp only [dayNumber]
  split_ifs at hoff hsucc <;> omega

theorem dayNumber_year_mono {y1 y2 : Nat} (h : y1 ≤ y2) :
    dayNumber ⟨y1, 1, 1⟩ ≤ dayNumber ⟨y2, 1, 1⟩ := by
  rw [dayNumber_first, dayNumber_first]
  have := leapCount_mono h
  omega

theorem year_le_of_dayNumber_le {a b : CDate} (ha : ValidDate a) (hb : ValidDate b)
    (h : dayNumber a ≤ dayNumber b) : a.y ≤ b.y := by
  by_contra hc
  push_neg at hc
  have h1 : dayNumber b < dayNumber ⟨b.y + 1, 1, 1⟩ := dayNumber_lt_next_year hb
  have h2 : dayNumber ⟨b.y + 1, 1, 1⟩ ≤ dayNumber ⟨a.y, 1, 1⟩ := dayNumber_year_mono (by omega)
  have h3 : dayNumber ⟨a.y, 1, 1⟩ ≤ dayNumber a := dayNumber_year_le
  omega

theorem dayNumber_inj {a b : CDate} (ha : ValidDate a) (hb : ValidDate b)
    (h : dayNumber a = dayNumber b) : a = b := by
  have hy : a.y = b.y :=
    le_antisymm (year_le_of_dayNumber_le ha hb h.le) (year_le_of_dayNumber_le hb ha h.ge)
  obtain ⟨ham1, ham2, had1, had2⟩ := ha
  obtain ⟨hbm1, hbm2, hbd1, hbd2⟩ := hb
  have hoff : daysUpTo a.y (a.m - 1) + (a.d - 1) = daysUpTo a.y (b.m - 1) + (b.d - 1) := by
    simp only [dayNumber, hy] at h ⊢
    omega
  have hmm : a.m = b.m := by
    rcases Nat.lt_trichotomy a.m b.m with hlt | heq | hgt
    · exfalso
      have e1 : daysUpTo a.y a.m = daysUpTo a.y (a.m - 1) + daysInMonth a.y a.m :=
        daysUpTo_sub_one _ _ ham1
      have e2 : daysUpTo a.y a.m ≤ daysUpTo a.y (b.m - 1) := daysUpTo_mono _ (by omega)
      omega
    · exact heq
    · exfalso
      have e1 : daysUpTo a.y b.m = daysUpTo a.y (b.m - 1) + daysInMonth a.y b.m :=
        daysUpTo_sub_one _ _ hbm1
      have e2 : daysUpTo a.y b.m ≤ daysUpTo a.y (a.m - 1) := daysUpTo_mono _ (by omega)
      rw [← hy] at hbd2
      omega
  have hdd : a.d = b.d := by
    rw [hmm] at hoff
    omega
  obtain ⟨ay, am, ad⟩ := a
  obtain ⟨by_, bm, bd⟩ := b
  simp_all

/-! Section: Decimal-string lemmas -/

theorem digitChar_inj : ∀ a < 10, ∀ b < 10, digitChar a = digitChar b → a = b := by decide

theorem digitVal_digitChar : ∀ k < 10, digitVal (digitChar k) = some k := by decide

theorem natAux_zero (f : Nat) : natAux f 0 = [] := by cases f <;> simp [natAux]

theorem natAux_eq_four {y : Nat} (h1 : 1000 ≤ y) (h2 : y ≤ 9999) (f : Nat) :
    natAux (f + 4) y = pad4c y := by
  have e1 : ¬ y = 0 := by omega
  have e2 : ¬ y / 10 = 0 := by omega
  have e3 : ¬ y / 10 / 10 = 0 := by omega
  have e4 : ¬ y / 10 / 10 / 10 = 0 := by omega
  have e5 : y / 10 / 10 / 10 / 10 = 0 := by omega
  simp only [natAux, e1, e2, e3, e4, if_neg, if_false, e5, natAux_zero]
  have d1 : y / 10 / 10 / 10 % 10 = y / 1000 := by omega
  have d2 : y / 10 / 10 % 10 = y / 100 % 10 := by omega
  have d3 : y / 10 % 10 = y / 10 % 10 := rfl
  simp [pad4c, d1, d2]

theorem natChars_four {y : Nat} (h1 : 1000 ≤ y) (h2 : y ≤ 9999) :
    natChars y = pad4c y := by
  have hy : ¬ y = 0 := by omega
  have hf : natAux y y = natAux ((y - 4) + 4) y := by congr 1; omega
  simp only [natChars, hy, if_neg, if_false, hf, natAux_eq_four h1 h2]

theorem natAux_eq_two {n : Nat} (h1 : 10 ≤ n) (h2 : n ≤ 99) (f : Nat) :
    natAux (f + 2) n = [digitChar (n / 10), digitChar (n % 10)] := by
  have e1 : ¬ n = 0 := by omega
  have e2 : ¬ n / 10 = 0 := by omega
  have e3 : n / 10 / 10 = 0 := by omega
  have d1 : n / 10 % 10 = n / 10 := by omega
  simp only [natAux, e1, e2, if_neg, if_false, e3, natAux_zero]
  simp [d1]

theorem pad2c_eq {n : Nat} (h : n ≤ 99) :
    pad2c n = [digitChar (n / 10), digitChar (n % 10)] := by
  by_cases h10 : n < 10
  · have d1 : n / 10 = 0 := by omega
    have d2 : n % 10 = n := by omega
    have h0 : digitChar 0 = '0' := by decide
    simp [pad2c, h10, d1, d2, h0]
  · have hn : ¬ n = 0 := by omega
    have hf : natAux n n = natAux ((n - 2) + 2) n := by congr 1; omega
    simp only [pad2c, h10, if_neg, if_false, natChars, hn, hf,
      natAux_eq_two (by omega) h (n - 2)]

theorem isoFor_eq_isoSlice {y m0 d : Nat} (h1 : 1000 ≤ y) (h2 : y ≤ 9999) :
    isoFor y m0 d = isoSlice ⟨y, m0 + 1, d⟩ := by
  have hy : y < 10000 := by omega
  simp [isoFor, isoSlice, hy, natChars_four h1 h2]

theorem isoFor_ne_empty (y m0 d : Nat) : isoFor y m0 d ≠ "" := by
  simp only [isoFor]
  intro h
  have h' := congrArg String.data h
  simp at h'

theorem digitVal_le {c : Char} {k : Nat} (h : digitVal c = some k) : k ≤ 9 := by
  unfold digitVal at h
  split_ifs at h with hc
  have hk : c.toNat - 48 = k := Option.some.inj h
  omega

/-- Formatting via `isoSlice` is injective on bounded well-formed dates. -/
theorem isoSlice_inj {a b : CDate} (hay : a.y ≤ 9999) (hby : b.y ≤ 9999)
    (ham : a.m ≤ 12) (hbm : b.m ≤ 12) (had : a.d ≤ 31) (hbd : b.d ≤ 31)
    (h : isoSlice a = isoSlice b) : a = b := by
  obtain ⟨ay, am, ad⟩ := a
  obtain ⟨by_, bm, bd⟩ := b
  dsimp only at hay hby ham hbm had hbd
  simp only [isoSlice] at h
  rw [if_pos (by omega : ay < 10000), if_pos (by omega : by_ < 10000)] at h
  rw [@pad2c_eq am (by omega), @pad2c_eq ad (by omega),
      @pad2c_eq bm (by omega), @pad2c_eq bd (by omega)] at h
  have hdata := congrArg String.data h
  simp only [pad4c, List.cons_append, List.nil_append, List.cons.injEq,
    eq_self_iff_true, true_and, and_true] at hdata
  obtain ⟨e1, e2, e3, e4, e5, e6, e7, e8⟩ := hdata
  have f1 := digitChar_inj _ (by omega) _ (by omega) e1
  have f2 := digitChar_inj _ (by omega) _ (by omega) e2
  have f3 := digitChar_inj _ (by omega) _ (by omega) e3
  have f4 := digitChar_inj _ (by omega) _ (by omega) e4
  have f5 := digitChar_inj _ (by omega) _ (by omega) e5
  have f6 := digitChar_inj _ (by omega) _ (by omega) e6
  have f7 := digitChar_inj _ (by omega) _ (by omega) e7
  have f8 := digitChar_inj _ (by omega) _ (by omega) e8
  have : ay = by_ := by omega
  have : am = bm := by omega
  have : ad = bd := by omega
  simp_all

theorem digitChar_ne_plus : ∀ k, k ≤ 9 → digitChar k ≠ '+' := by decide

/-- Every date the month/day suffix parser accepts is valid and keeps the
given year. -/
theorem parseYMD_valid {y : Nat} {rest : List Char} {dt : CDate}
    (h : parseYMD y rest = some dt) : ValidDate dt ∧ dt.y = y := by
  unfold parseYMD at h
  split at h
  · obtain rfl := Option.some.inj h
    exact ⟨⟨le_refl _, by dsimp only; omega, le_refl _, daysInMonth_pos _ _⟩, rfl⟩
  · split_ifs at h
    split at h
    next a b ha hb =>
      dsimp only at h
      split_ifs at h with hrange
      obtain rfl := Option.some.inj h
      exact ⟨⟨hrange.1, hrange.2, le_refl _, daysInMonth_pos _ _⟩, rfl⟩
    next => exact absurd h (by simp)
  · split_ifs at h
    split at h
    next a b c e ha hb hc he =>
      dsimp only at h
      split_ifs at h with hrange
      obtain rfl := Option.some.inj h
      exact ⟨hrange, rfl⟩
    next => exact absurd h (by simp)
  · exact absurd h (by simp)

/-- Every date the plain (four-digit-year) parser accepts is valid with a
year below 10000. -/
theorem parsePlain_valid {l : List Char} {dt : CDate} (h : parsePlain l = some dt) :
    ValidDate dt ∧ dt.y ≤ 9999 := by
  unfold parsePlain at h
  split at h
  next y1 y2 y3 y4 rest =>
    split at h
    next a b c e ha hb hc he =>
      have hv := parseYMD_valid h
      have ba := digitVal_le ha
      have bb := digitVal_le hb
      have bc := digitVal_le hc
      have be := digitVal_le he
      exact ⟨hv.1, by omega⟩
    next => exact absurd h (by simp)
  next => exact absurd h (by simp)

/-- Every date the expanded-year digit parser accepts is valid. -/
theorem parseExp6_valid {l : List Char} {dt : CDate} (h : parseExp6 l = some dt) :
    ValidDate dt := by
  unfold parseExp6 at h
  split at h
  next y1 y2 y3 y4 y5 y6 rest =>
    split at h
    next a b c e f g ha hb hc he hf hg => exact (parseYMD_valid h).1
    next => exact absurd h (by simp)
  next => exact absurd h (by simp)

theorem parseExpanded_valid {l : List Char} {dt : CDate} (h : parseExpanded l = some dt) :
    ValidDate dt := by
  unfold parseExpanded at h
  split at h
  next dt' heq =>
    split_ifs at h
    obtain rfl := Option.some.inj h
    exact parseExp6_valid heq
  next => exact absurd h (by simp)

/-- Any successfully parsed date string denotes a valid date. -/
theorem parseIso_valid {s : String} {dt : CDate} (h : parseIso s = some dt) :
    ValidDate dt := by
  unfold parseIso at h
  split at h
  · exact absurd h (by simp)
  next c rest =>
    split_ifs at h
    · exact parseExpanded_valid h
    · exact (parsePlain_valid h).1

/-- Parsing inverts formatting on valid four-digit-year dates. -/
theorem parseIso_isoSlice {dt : CDate} (hv : ValidDate dt) (hy : dt.y ≤ 9999) :
    parseIso (isoSlice dt) = some dt := by
  obtain ⟨y, m, d⟩ := dt
  obtain ⟨hm1, hm2, hd1, hd2⟩ := hv
  dsimp only at hm1 hm2 hd1 hd2 hy
  have hd31 : d ≤ 31 := le_trans hd2 (daysInMonth_le _ _)
  simp only [isoSlice]
  rw [if_pos (by omega : y < 10000)]
  rw [@pad2c_eq m (by omega), @pad2c_eq d (by omega)]
  simp only [pad4c, List.cons_append, List.nil_append]
  unfold parseIso
  dsimp only
  rw [if_neg (digitChar_ne_plus (y / 1000) (by omega))]
  unfold parsePlain
  dsimp only
  rw [digitVal_digitChar (y / 1000) (by omega), digitVal_digitChar (y / 100 % 10) (by omega),
      digitVal_digitChar (y / 10 % 10) (by omega), digitVal_digitChar (y % 10) (by omega)]
  dsimp only
  have ey : ((y / 1000 * 10 + y / 100 % 10) * 10 + y / 10 % 10) * 10 + y % 10 = y := by omega
  rw [ey]
  unfold parseYMD
  dsimp only
  rw [if_pos (⟨rfl, rfl⟩ : ('-' : Char) = '-' ∧ ('-' : Char) = '-')]
  rw [digitVal_digitChar (m / 10) (by omega), digitVal_digitChar (m % 10) (by omega),
      digitVal_digitChar (d / 10) (by omega), digitVal_digitChar (d % 10) (by omega)]
  dsimp only
  have em : m / 10 * 10 + m % 10 = m := by omega
  have ed : d / 10 * 10 + d % 10 = d := by omega
  rw [em, ed]
  rw [if_pos (⟨hm1, hm2, hd1, hd2⟩ : 1 ≤ m ∧ m ≤ 12 ∧ 1 ≤ d ∧ d ≤ daysInMonth y m)]

/-! Section: Grid lemmas -/

theorem weekday_lt (dt : CDate) : weekday dt < 7 := by
  simp only [weekday]
  omega

theorem attachCell_blank (hols : List Holiday) (atts : List AttendanceDoc)
    (lvs : List LeaveDoc) : attachCell hols atts lvs blankCell = blankCell := by
  simp [attachCell, blankCell]

theorem attachCell_iso (hols : List Holiday) (atts : List AttendanceDoc)
    (lvs : List LeaveDoc) (c : DayInfo) : (attachCell hols atts lvs c).iso = c.iso := by
  unfold attachCell
  split_ifs <;> rfl

theorem countLeadingBlanks_replicate_append (k : Nat) (l : List DayInfo) :
    countLeadingBlanks (List.replicate k blankCell ++ l) = k + countLeadingBlanks l := by
  induction k with
  | zero => simp
  | succ n ih =>
    have hstep : countLeadingBlanks (List.replicate (n + 1) blankCell ++ l)
        = 1 + countLeadingBlanks (List.replicate n blankCell ++ l) := by
      simp [countLeadingBlanks, List.replicate_succ, List.takeWhile_cons, blankCell]
      omega
    omega

theorem countLeadingBlanks_cons_ne (c : DayInfo) (l : List DayInfo) (h : c.iso ≠ "") :
    countLeadingBlanks (c :: l) = 0 := by
  simp only [countLeadingBlanks, List.takeWhile_cons]
  have hb : (c.iso == "") = false := by
    simp [h]
  rw [hb]
  rfl

/-- The bare grid is always exactly 42 cells. -/
theorem buildGrid_length (year m0 : Nat) : (buildGrid year m0).length = 42 := by
  have h7 : weekday ⟨effYear year m0, effMonth m0, 1⟩ < 7 := weekday_lt _
  have h31 : daysInMonth (effYear year m0) (effMonth m0) ≤ 31 := daysInMonth_le _ _
  simp only [buildGrid, List.length_append, List.length_replicate, List.length_map,
    List.length_range]
  omega

theorem effYear_eq {year m0 : Nat} (hy : 100 ≤ year) (hm : m0 < 12) :
    effYear year m0 = year := by
  unfold effYear jsYear
  rw [if_neg (by omega)]
  omega

theorem effMonth_eq {m0 : Nat} (hm : m0 < 12) : effMonth m0 = m0 + 1 := by
  unfold effMonth
  omega

/-- C4: every month grid, for any inputs, has exactly 42 cells. -/
theorem monthGrid_length (year m0 : Nat) (atts : List AttendanceDoc)
    (lvs : List LeaveDoc) (hols : List Holiday) :
    (monthGrid year m0 atts lvs hols).length = 42 := by
  simp [monthGrid, buildGrid_length]

/-- C5: the leading blank run equals the weekday (Sunday = 0) of day 1. -/
theorem monthGrid_leading_blanks (year m0 : Nat) (atts : List AttendanceDoc)
    (lvs : List LeaveDoc) (hols : List Holiday) (hy : 100 ≤ year) (hm : m0 < 12) :
    countLeadingBlanks (monthGrid year m0 atts lvs hols) = weekday ⟨year, m0 + 1, 1⟩ := by
  have hYe := effYear_eq hy hm
  have hMe := effMonth_eq hm
  have hT : 1 ≤ daysInMonth (effYear year m0) (effMonth m0) := daysInMonth_pos _ _
  obtain ⟨T, hTe⟩ : ∃ T, daysInMonth (effYear year m0) (effMonth m0) = T + 1 :=
    ⟨daysInMonth (effYear year m0) (effMonth m0) - 1, by omega⟩
  unfold monthGrid buildGrid
  dsimp only
  rw [hTe, List.range_succ_eq_map]
  simp only [List.map_append, List.map_cons, List.map_replicate, attachCell_blank,
    List.append_assoc, List.cons_append]
  rw [countLeadingBlanks_replicate_append]
  rw [countLeadingBlanks_cons_ne]
  · rw [hYe, hMe]
    omega
  · rw [attachCell_iso]
    exact isoFor_ne_empty _ _ _

/-- Witness for C5: May 2024 starts on a Wednesday, so its grid has exactly
3 leading blank cells. -/
theorem monthGrid_leading_blanks_witness :
    countLeadingBlanks (monthGrid 2024 4 [] [] []) = weekday ⟨2024, 5, 1⟩
  ∧ weekday ⟨2024, 5, 1⟩ = 3 :=
  ⟨monthGrid_leading_blanks 2024 4 [] [] [] (by omega) (by omega), by decide⟩

/-! Section: Stats lemmas -/

theorem getPriority_blank {d : DayInfo} (h : d.iso = "") : getPriorityForDay d = none := by
  simp [getPriorityForDay, h]

set_option maxHeartbeats 1600000 in
theorem statsStep_eq (s : Stats) (d : DayInfo) :
    statsStep s d = if d.iso = "" then s else
      { totalDays := s.totalDays + 1,
        present := s.present + (if resolvedType d = some ("present") then 1 else 0),
        absent := s.absent + (if resolvedType d = some ("absent") then 1 else 0),
        half := s.half + (if resolvedType d = some ("half-day") then 1 else 0),
        leaveDays := s.leaveDays + (if resolvedType d = some ("leave") then 1 else 0),
        holidaysCount := s.holidaysCount + (if resolvedType d = some ("holiday") then 1 else 0),
        sundays := s.sundays + (if d.isSunday then 1 else 0) } := by
  unfold statsStep resolvedType
  dsimp only
  split_ifs <;> rfl

theorem stats_foldl (g : List DayInfo) (s0 : Stats) :
    g.foldl statsStep s0 = {
      totalDays := s0.totalDays + g.countP isRealCell,
      present := s0.present +
        g.countP (fun d => isRealCell d && decide (resolvedType d = some ("present"))),
      absent := s0.absent +
        g.countP (fun d => isRealCell d && decide (resolvedType d = some ("absent"))),
      half := s0.half +
        g.countP (fun d => isRealCell d && decide (resolvedType d = some ("half-day"))),
      leaveDays := s0.leaveDays +
        g.countP (fun d => isRealCell d && decide (resolvedType d = some ("leave"))),
      holidaysCount := s0.holidaysCount +
        g.countP (fun d => isRealCell d && decide (resolvedType d = some ("holiday"))),
      sundays := s0.sundays + g.countP (fun d => isRealCell d && d.isSunday) } := by
  induction g generalizing s0 with
  | nil => simp
  | cons d g ih =>
    rw [List.foldl_cons, ih, statsStep_eq]
    by_cases h : d.iso = ""
    · rw [if_pos h]
      have hreal : isRealCell d = false := by simp [isRealCell, h]
      simp [List.countP_cons, hreal]
    · rw [if_neg h]
      have hreal : isRealCell d = true := by simp [isRealCell, h]
      simp only [List.countP_cons, hreal, Bool.true_and, decide_eq_true_eq,
        eq_self_iff_true, if_true, Stats.mk.injEq]
      refine ⟨?_, ?_, ?_, ?_, ?_, ?_, ?_⟩ <;> first | omega | (split_ifs <;> omega)

theorem stats_spec (g : List DayInfo) :
    stats g = {
      totalDays := g.countP isRealCell,
      present := g.countP (fun d => isRealCell d && decide (resolvedType d = some ("present"))),
      absent := g.countP (fun d => isRealCell d && decide (resolvedType d = some ("absent"))),
      half := g.countP (fun d => isRealCell d && decide (resolvedType d = some ("half-day"))),
      leaveDays := g.countP (fun d => isRealCell d && decide (resolvedType d = some ("leave"))),
      holidaysCount := g.countP (fun d => isRealCell d && decide (resolvedType d = some ("holiday"))),
      sundays := g.countP (fun d => isRealCell d && d.isSunday) } := by
  unfold stats
  rw [stats_foldl]
  simp

/-! Section: Resolver lemmas -/

theorem getPriority_holiday {day : DayInfo} {h : Holiday} (hne : day.iso ≠ "")
    (hh : day.holiday = some h) :
    getPriorityForDay day = some (holidayPriority h) := by
  simp [getPriorityForDay, holidayPriority, hne, hh]

theorem getPriority_sunday {day : DayInfo} (hne : day.iso ≠ "")
    (hh : day.holiday = none) (hs : day.isSunday = true) :
    getPriorityForDay day = some sundayPriority := by
  simp [getPriorityForDay, sundayPriority, hne, hh, hs]

theorem getPriority_leave {day : DayInfo} (hne : day.iso ≠ "")
    (hh : day.holiday = none) (hs : day.isSunday = false) (hl : day.leaves ≠ []) :
    getPriorityForDay day = some (leavePriority day.leaves) := by
  have hlen : 0 < day.leaves.length := List.length_pos.mpr hl
  simp [getPriorityForDay, leavePriority, hne, hh, hs, hlen]

theorem getPriority_attendance {day : DayInfo} {a : AttendanceDoc} (hne : day.iso ≠ "")
    (hh : day.holiday = none) (hs : day.isSunday = false) (hl : day.leaves = [])
    (ha : day.attendance = some a) :
    resolvedType day =
      if a.status = some ("absent") then some ("absent")
      else if a.status = some ("half-day") then some ("half-day")
      else if a.status = some ("present") then some ("present")
      else none := by
  simp only [resolvedType, getPriorityForDay, hne, hh, hs, hl, ha]
  split_ifs <;> simp_all [getPriority_blank]

theorem getPriority_none {day : DayInfo} (hh : day.holiday = none)
    (hs : day.isSunday = false) (hl : day.leaves = []) (ha : day.attendance = none) :
    getPriorityForDay day = none := by
  by_cases hne : day.iso = ""
  · exact getPriority_blank hne
  · simp [getPriorityForDay, hne, hh, hs, hl, ha]

/-! Section: Claim theorems: resolver precedence and aggregates -/

/-- C1: for every non-blank cell the resolver returns the first matching rule
of the fixed precedence holiday > Sunday > leave > absent > half-day >
present > none (so at most one terminal status is ever selected); in
particular a cell that is both a Sunday and a holiday resolves to "holiday",
and an "absent" attendance record on a non-holiday Sunday resolves to
"sunday". -/
theorem c1_priority_order (day : DayInfo) (h : day.iso ≠ "") :
    (∀ hol, day.holiday = some hol → resolvedType day = some ("holiday"))
  ∧ (day.holiday = none → day.isSunday = true → resolvedType day = some ("sunday"))
  ∧ (day.holiday = none → day.isSunday = false → day.leaves ≠ [] →
      resolvedType day = some ("leave"))
  ∧ (∀ a, day.holiday = none → day.isSunday = false → day.leaves = [] →
      day.attendance = some a → a.status = some ("absent") →
      resolvedType day = some ("absent"))
  ∧ (∀ a, day.holiday = none → day.isSunday = false → day.leaves = [] →
      day.attendance = some a → a.status = some ("half-day") →
      resolvedType day = some ("half-day"))
  ∧ (∀ a, day.holiday = none → day.isSunday = false → day.leaves = [] →
      day.attendance = some a → a.status = some ("present") →
      resolvedType day = some ("present"))
  ∧ (day.holiday = none → day.isSunday = false → day.leaves = [] →
      day.attendance = none → resolvedType day = none) := by
  refine ⟨?_, ?_, ?_, ?_, ?_, ?_, ?_⟩
  · intro hol hh
    simp [resolvedType, getPriority_holiday h hh, holidayPriority]
  · intro hh hs
    simp [resolvedType, getPriority_sunday h hh hs, sundayPriority]
  · intro hh hs hl
    simp [resolvedType, getPriority_leave h hh hs hl, leavePriority]
  · intro a hh hs hl ha hst
    rw [getPriority_attendance h hh hs hl ha, hst]
    simp
  · intro a hh hs hl ha hst
    rw [getPriority_attendance h hh hs hl ha, hst]
    simp
  · intro a hh hs hl ha hst
    rw [getPriority_attendance h hh hs hl ha, hst]
    simp
  · intro hh hs hl ha
    simp [resolvedType, getPriority_none hh hs hl ha]

/-- Witness for C1 at two concrete cells: a holiday Sunday resolves to
"holiday"; an absent record on a plain Sunday resolves to "sunday". -/
theorem c1_priority_order_witness :
    resolvedType { iso := "2024-03-10", dayNumber := some 10,
                   holiday := some ⟨none, "2024-03-10", "Holi"⟩, isSunday := true }
      = some ("holiday")
  ∧ resolvedType { iso := "2024-03-03", dayNumber := some 3,
                   attendance := some ⟨"a1", "2024-03-03", some ("absent"), none⟩,
                   isSunday := true }
      = some ("sunday") := by
  constructor
  · exact (c1_priority_order _ (by decide)).1 _ rfl
  · exact (c1_priority_order _ (by decide)).2.1 rfl rfl

/-- C6: a cell resolving to leave is labelled with the comma-joined list of
the covering leave types, and uses the work-from-home icon variant iff some
covering leave's type contains the case-insensitive substring "wfh". -/
theorem c6_leave_label_and_variant (day : DayInfo) (h : day.iso ≠ "")
    (hh : day.holiday = none) (hs : day.isSunday = false) (hl : day.leaves ≠ []) :
    getPriorityForDay day = some (leavePriority day.leaves)
  ∧ (leavePriority day.leaves).label =
      String.intercalate (", ") (day.leaves.map LeaveDoc.type)
  ∧ ((leavePriority day.leaves).icon = IconKind.home ↔
      ∃ l ∈ day.leaves, listContainsSub (toLowerStr l.type).data ("wfh").data = true) := by
  refine ⟨getPriority_leave h hh hs hl, rfl, ?_⟩
  simp only [leavePriority]
  by_cases hw : day.leaves.any
      (fun l => listContainsSub (toLowerStr l.type).data ("wfh").data) = true
  · rw [if_pos hw]
    rw [List.any_eq_true] at hw
    simpa using hw
  · rw [if_neg hw]
    rw [List.any_eq_true] at hw
    push_neg at hw
    constructor
    · intro hcx
      exact absurd hcx (by decide)
    · rintro ⟨l, hl1, hl2⟩
      exact absurd hl2 (by simpa using hw l hl1)

/-- Witness for C6: a "Work From Home (WFH)" leave yields the home icon, a
"Casual Leave" yields the generic leave icon. -/
theorem c6_leave_witness :
    (getPriorityForDay ⟨"2024-03-05", none, none,
        [⟨"l1", "Work From Home (WFH)", "2024-03-04", "2024-03-06", "approved", none⟩],
        none, false⟩).map PriorityInfo.icon = some IconKind.home
  ∧ (getPriorityForDay ⟨"2024-03-06", none, none,
        [⟨"l2", "Casual Leave", "2024-03-06", "2024-03-06", "approved", none⟩],
        none, false⟩).map PriorityInfo.icon = some IconKind.calendarX := by
  have h1 := (c6_leave_label_and_variant ⟨"2024-03-05", none, none,
    [⟨"l1", "Work From Home (WFH)", "2024-03-04", "2024-03-06", "approved", none⟩],
    none, false⟩ (by decide) rfl rfl (by decide)).1
  have h2 := (c6_leave_label_and_variant ⟨"2024-03-06", none, none,
    [⟨"l2", "Casual Leave", "2024-03-06", "2024-03-06", "approved", none⟩],
    none, false⟩ (by decide) rfl rfl (by decide)).1
  rw [h1, h2]
  constructor <;> decide

/-- C10: an attendance record whose status is none of "absent", "half-day",
"present" on an otherwise bare non-Sunday cell resolves to no status, and
such a cell contributes to no aggregate counter except total days. -/
theorem c10_nonstandard_status_invisible (day : DayInfo) (a : AttendanceDoc)
    (h : day.iso ≠ "") (hh : day.holiday = none) (hs : day.isSunday = false)
    (hl : day.leaves = []) (ha : day.attendance = some a)
    (h1 : a.status ≠ some ("absent")) (h2 : a.status ≠ some ("half-day"))
    (h3 : a.status ≠ some ("present")) :
    getPriorityForDay day = none
  ∧ ∀ rest : List DayInfo,
      stats (day :: rest) =
        { stats rest with totalDays := (stats rest).totalDays + 1 } := by
  have hr : resolvedType day = none := by
    rw [getPriority_attendance h hh hs hl ha]
    simp [h1, h2, h3]
  have hp : getPriorityForDay day = none := by
    have hr' := hr
    unfold resolvedType at hr'
    exact Option.map_eq_none'.mp hr'
  refine ⟨hp, ?_⟩
  intro rest
  have hreal : isRealCell day = true := by simp [isRealCell, h]
  rw [stats_spec, stats_spec]
  simp [List.countP_cons, hreal, hr, hs]

/-- Witness for C10: a lone "wfh" attendance record on an ordinary weekday
cell resolves to no status and bumps only the total-days counter. -/
theorem c10_nonstandard_status_witness :
    getPriorityForDay ⟨"2024-03-05", some 5,
        some ⟨"a1", "2024-03-05", some ("wfh"), none⟩, [], none, false⟩ = none
  ∧ stats [⟨"2024-03-05", some 5, some ⟨"a1", "2024-03-05", some ("wfh"), none⟩,
        [], none, false⟩]
      = { stats [] with totalDays := (stats []).totalDays + 1 } := by
  have h := c10_nonstandard_status_invisible
    ⟨"2024-03-05", some 5, some ⟨"a1", "2024-03-05", some ("wfh"), none⟩, [], none, false⟩
    ⟨"a1", "2024-03-05", some ("wfh"), none⟩
    (by decide) rfl rfl rfl rfl (by decide) (by decide) (by decide)
  exact ⟨h.1, h.2 []⟩

/-- C3 (amended): every monthly aggregate except the Sunday count is a tally
of resolved per-cell statuses over the non-blank cells; the Sunday count
instead tallies the raw is-Sunday flag (so a holiday falling on a Sunday is
counted both as a holiday and as a Sunday). -/
theorem c3_stats_amended (year m0 : Nat) (atts : List AttendanceDoc)
    (lvs : List LeaveDoc) (hols : List Holiday) :
    stats (monthGrid year m0 atts lvs hols) = {
      totalDays := (monthGrid year m0 atts lvs hols).countP isRealCell,
      present := (monthGrid year m0 atts lvs hols).countP
        (fun d => isRealCell d && decide (resolvedType d = some ("present"))),
      absent := (monthGrid year m0 atts lvs hols).countP
        (fun d => isRealCell d && decide (resolvedType d = some ("absent"))),
      half := (monthGrid year m0 atts lvs hols).countP
        (fun d => isRealCell d && decide (resolvedType d = some ("half-day"))),
      leaveDays := (monthGrid year m0 atts lvs hols).countP
        (fun d => isRealCell d && decide (resolvedType d = some ("leave"))),
      holidaysCount := (monthGrid year m0 atts lvs hols).countP
        (fun d => isRealCell d && decide (resolvedType d = some ("holiday"))),
      sundays := (monthGrid year m0 atts lvs hols).countP
        (fun d => isRealCell d && d.isSunday) } :=
  stats_spec _

/-- C3 counterexample: in January 2023 with New Year's Day (Sunday
2023-01-01) as the only holiday and no other data, the `sundays` counter is 5
although only 4 non-blank cells resolve to the "sunday" status — the
aggregate Sunday count is not a tally of resolved statuses. -/
theorem c3_sundays_counterexample :
    (stats (monthGrid 2023 0 [] [] [⟨some ("h1"), "2023-01-01", "New Year"⟩])).sundays = 5
  ∧ (monthGrid 2023 0 [] [] [⟨some ("h1"), "2023-01-01", "New Year"⟩]).countP
      (fun d => isRealCell d && decide (resolvedType d = some ("sunday"))) = 4 := by
  constructor <;> decide

/-! Section: Attachment lemmas -/

theorem attFor_eq_getLast (atts : List AttendanceDoc) (iso : String) :
    attFor atts iso = (atts.filter (fun a => a.date == iso)).getLast? := by
  induction atts using List.reverseRecOn with
  | nil => rfl
  | append_singleton l x ih =>
    rw [attFor, List.foldl_append]
    rw [attFor] at ih
    rw [List.filter_append]
    by_cases hx : x.date = iso
    · simp only [List.foldl_cons, List.foldl_nil, if_pos hx]
      have : List.filter (fun a => a.date == iso) [x] = [x] := by simp [hx]
      rw [this]
      exact (List.getLast?_concat _).symm
    · simp only [List.foldl_cons, List.foldl_nil, if_neg hx]
      have : List.filter (fun a => a.date == iso) [x] = [] := by simp [hx]
      rw [this, List.append_nil]
      exact ih

theorem holFor_eq_getLast (hols : List Holiday) (iso : String) :
    holFor hols iso = (hols.filter (fun h => h.date == iso)).getLast? := by
  induction hols using List.reverseRecOn with
  | nil => rfl
  | append_singleton l x ih =>
    rw [holFor, List.foldl_append]
    rw [holFor] at ih
    rw [List.filter_append]
    by_cases hx : x.date = iso
    · simp only [List.foldl_cons, List.foldl_nil, if_pos hx]
      have : List.filter (fun h => h.date == iso) [x] = [x] := by simp [hx]
      rw [this]
      exact (List.getLast?_concat _).symm
    · simp only [List.foldl_cons, List.foldl_nil, if_neg hx]
      have : List.filter (fun h => h.date == iso) [x] = [] := by simp [hx]
      rw [this, List.append_nil]
      exact ih

theorem attachCell_eq (hols : List Holiday) (atts : List AttendanceDoc)
    (lvs : List LeaveDoc) {cell : DayInfo} (h : cell.iso ≠ "") :
    attachCell hols atts lvs cell =
      { cell with
        holiday := holFor hols cell.iso
        attendance := attFor atts cell.iso
        leaves := lvs.filter (fun L => (leaveDates L).contains cell.iso)
        isSunday := match parseIso cell.iso with
          | some dt => weekday dt == 0
          | none => false } := by
  unfold attachCell
  rw [if_neg h]

theorem mem_buildGrid {year m0 : Nat} {c : DayInfo} (hc : c ∈ buildGrid year m0) :
    c = blankCell ∨ ∃ d, 1 ≤ d ∧ d ≤ daysInMonth (effYear year m0) (effMonth m0) ∧
      c = { iso := isoFor year m0 d, dayNumber := some d } := by
  unfold buildGrid at hc
  dsimp only at hc
  rcases List.mem_append.mp hc with h | h
  · rcases List.mem_append.mp h with h1 | h1
    · exact Or.inl (List.eq_of_mem_replicate h1)
    · obtain ⟨i, hi, rfl⟩ := List.mem_map.mp h1
      rw [List.mem_range] at hi
      exact Or.inr ⟨i + 1, by omega, by omega, rfl⟩
  · exact Or.inl (List.eq_of_mem_replicate h)

/-- C7: each non-blank cell's attendance is the last record of its date in
input (processing) order, so duplicates silently overwrite earlier ones and
records of other dates leave the cell untouched. -/
theorem c7_duplicate_attendance_last_wins (year m0 : Nat) (atts : List AttendanceDoc)
    (lvs : List LeaveDoc) (hols : List Holiday) :
    ∀ c ∈ monthGrid year m0 atts lvs hols, c.iso ≠ "" →
      c.attendance = (atts.filter (fun a => a.date == c.iso)).getLast? := by
  intro c hc hne
  obtain ⟨cell, hcell, rfl⟩ := List.mem_map.mp hc
  rw [attachCell_iso] at hne ⊢
  rw [attachCell_eq hols atts lvs hne]
  exact attFor_eq_getLast _ _

/-- Witness for C7: with two March-2024 records on date 2024-03-05 ("absent"
then "present"), the 2024-03-05 cell holds the later "present" record. -/
theorem c7_last_wins_witness :
    ((⟨"2024-03-05", some 5, some ⟨"a2", "2024-03-05", some ("present"), none⟩,
        [], none, false⟩ : DayInfo)
      ∈ monthGrid 2024 2 [⟨"a1", "2024-03-05", some ("absent"), none⟩,
          ⟨"a2", "2024-03-05", some ("present"), none⟩] [] [])
  ∧ (⟨"2024-03-05", some 5, some ⟨"a2", "2024-03-05", some ("present"), none⟩,
        [], none, false⟩ : DayInfo).attendance
      = (([⟨"a1", "2024-03-05", some ("absent"), none⟩,
           ⟨"a2", "2024-03-05", some ("present"), none⟩] : List AttendanceDoc).filter
          (fun a => a.date == (⟨"2024-03-05", some 5,
            some ⟨"a2", "2024-03-05", some ("present"), none⟩,
            [], none, false⟩ : DayInfo).iso)).getLast? := by
  have hmem : (⟨"2024-03-05", some 5, some ⟨"a2", "2024-03-05", some ("present"), none⟩,
      [], none, false⟩ : DayInfo)
      ∈ monthGrid 2024 2 [⟨"a1", "2024-03-05", some ("absent"), none⟩,
          ⟨"a2", "2024-03-05", some ("present"), none⟩] [] [] := by decide
  refine ⟨hmem, ?_⟩
  exact c7_duplicate_attendance_last_wins 2024 2
    [⟨"a1", "2024-03-05", some ("absent"), none⟩,
     ⟨"a2", "2024-03-05", some ("present"), none⟩] [] [] _ hmem (by decide)

/-! Section: Malformed-input lemmas (C8) -/

theorem leaveDates_malformed {L : LeaveDoc}
    (h : parseIso L.fromDate = none ∨ parseIso L.toDate = none) :
    leaveDates L = [] := by
  rcases hf : parseIso L.fromDate with _ | f
  · unfold leaveDates
    rw [hf]
  · rcases h with h | h
    · exact absurd hf (by rw [h]; simp)
    · unfold leaveDates
      rw [hf, h]

theorem mem_monthGrid {year m0 : Nat} {atts : List AttendanceDoc} {lvs : List LeaveDoc}
    {hols : List Holiday} {c : DayInfo} (hc : c ∈ monthGrid year m0 atts lvs hols) :
    c = blankCell ∨ ∃ d, 1 ≤ d ∧ d ≤ daysInMonth (effYear year m0) (effMonth m0) ∧
      c = attachCell hols atts lvs { iso := isoFor year m0 d, dayNumber := some d } := by
  obtain ⟨cell, hcell, rfl⟩ := List.mem_map.mp hc
  rcases mem_buildGrid hcell with rfl | ⟨d, h1, h2, rfl⟩
  · exact Or.inl (attachCell_blank _ _ _)
  · exact Or.inr ⟨d, h1, h2, rfl⟩

theorem parseIso_cell {year m0 d : Nat} (hy1 : 1000 ≤ year) (hy2 : year ≤ 9999)
    (hm : m0 < 12) (hd1 : 1 ≤ d) (hd2 : d ≤ daysInMonth year (m0 + 1)) :
    parseIso (isoFor year m0 d) = some ⟨year, m0 + 1, d⟩ := by
  rw [isoFor_eq_isoSlice hy1 hy2]
  exact parseIso_isoSlice ⟨by dsimp only; omega, by dsimp only; omega, hd1, hd2⟩ hy2

/-- C8: a record with an unparseable date string attaches to no cell, in any
of the three collections, and a cell with no attached facts resolves to the
"no data" status — the whole pipeline is total and raises no error. A leave
bound is malformed exactly when the ECMAScript Date Time String Format
rejects it, i.e. when both `parseIso` (all forms of year ≥ 0) and `parseNeg`
(the negative expanded-year forms) fail on it; for attendance and holiday
records, whose attachment is exact string match, `parseIso _ = none` alone
already guarantees the string can equal no cell date. -/
theorem c8_malformed_ignored (year m0 : Nat) (atts : List AttendanceDoc)
    (lvs : List LeaveDoc) (hols : List Holiday)
    (hy1 : 1000 ≤ year) (hy2 : year ≤ 9999) (hm : m0 < 12) :
    (∀ L : LeaveDoc,
      ((parseIso L.fromDate = none ∧ parseNeg L.fromDate = none) ∨
       (parseIso L.toDate = none ∧ parseNeg L.toDate = none)) →
      ∀ c ∈ monthGrid year m0 atts lvs hols, L ∉ c.leaves)
  ∧ (∀ a : AttendanceDoc, parseIso a.date = none →
      ∀ c ∈ monthGrid year m0 atts lvs hols, c.attendance ≠ some a)
  ∧ (∀ h : Holiday, parseIso h.date = none →
      ∀ c ∈ monthGrid year m0 atts lvs hols, c.holiday ≠ some h)
  ∧ (∀ day : DayInfo, day.holiday = none → day.isSunday = false →
      day.leaves = [] → day.attendance = none → getPriorityForDay day = none) := by
  have hy100 : 100 ≤ year := by omega
  have heffy := effYear_eq hy100 hm
  have heffm := effMonth_eq hm
  refine ⟨?_, ?_, ?_, fun day hh hs hl ha => getPriority_none hh hs hl ha⟩
  · intro L hL c hc hmem
    have hL' : parseIso L.fromDate = none ∨ parseIso L.toDate = none := by
      rcases hL with ⟨h1, _⟩ | ⟨h1, _⟩
      · exact Or.inl h1
      · exact Or.inr h1
    rcases mem_monthGrid hc with rfl | ⟨d, h1, h2, rfl⟩
    · simp [blankCell] at hmem
    · rw [attachCell_eq _ _ _ (isoFor_ne_empty _ _ _)] at hmem
      have hpred := (List.mem_filter.mp hmem).2
      rw [leaveDates_malformed hL'] at hpred
      simp at hpred
  · intro a hpa c hc hcontra
    rcases mem_monthGrid hc with rfl | ⟨d, h1, h2, rfl⟩
    · simp [blankCell] at hcontra
    · rw [attachCell_eq _ _ _ (isoFor_ne_empty _ _ _)] at hcontra
      rw [attFor_eq_getLast] at hcontra
      have hmem := List.mem_of_getLast?_eq_some hcontra
      have hdate := (List.mem_filter.mp hmem).2
      rw [beq_iff_eq] at hdate
      rw [hdate] at hpa
      rw [heffy, heffm] at h2
      rw [parseIso_cell hy1 hy2 hm h1 h2] at hpa
      exact absurd hpa (by simp)
  · intro h hph c hc hcontra
    rcases mem_monthGrid hc with rfl | ⟨d, h1, h2, rfl⟩
    · simp [blankCell] at hcontra
    · rw [attachCell_eq _ _ _ (isoFor_ne_empty _ _ _)] at hcontra
      rw [holFor_eq_getLast] at hcontra
      have hmem := List.mem_of_getLast?_eq_some hcontra
      have hdate := (List.mem_filter.mp hmem).2
      rw [beq_iff_eq] at hdate
      rw [hdate] at hph
      rw [heffy, heffm] at h2
      rw [parseIso_cell hy1 hy2 hm h1 h2] at hph
      exact absurd hph (by simp)

/-- Witness for C8: with a leave whose fromDate is "garbage", an attendance
record dated "03/05/2024" and a holiday dated "13-13-13", the 2024-03-12
cell of March 2024 carries none of them and resolves to no status. -/
theorem c8_malformed_witness :
    ((⟨"l1", "Casual Leave", "garbage", "2024-03-12", "approved", none⟩ : LeaveDoc) ∉
        (⟨"2024-03-12", some 12, none, [], none, false⟩ : DayInfo).leaves)
  ∧ ((⟨"2024-03-12", some 12, none, [], none, false⟩ : DayInfo).attendance ≠
        some ⟨"a1", "03/05/2024", some ("present"), none⟩)
  ∧ ((⟨"2024-03-12", some 12, none, [], none, false⟩ : DayInfo).holiday ≠
        some ⟨none, "13-13-13", "Bogus"⟩)
  ∧ getPriorityForDay ⟨"2024-03-12", some 12, none, [], none, false⟩ = none := by
  have h := c8_malformed_ignored 2024 2 [⟨"a1", "03/05/2024", some ("present"), none⟩]
    [⟨"l1", "Casual Leave", "garbage", "2024-03-12", "approved", none⟩]
    [⟨none, "13-13-13", "Bogus"⟩] (by omega) (by omega) (by omega)
  have hmem : (⟨"2024-03-12", some 12, none, [], none, false⟩ : DayInfo) ∈
      monthGrid 2024 2 [⟨"a1", "03/05/2024", some ("present"), none⟩]
        [⟨"l1", "Casual Leave", "garbage", "2024-03-12", "approved", none⟩]
        [⟨none, "13-13-13", "Bogus"⟩] := by decide
  exact ⟨h.1 _ (Or.inl ⟨by decide, by decide⟩) _ hmem, h.2.1 _ (by decide) _ hmem,
    h.2.2.1 _ (by decide) _ hmem, h.2.2.2 _ rfl rfl rfl rfl⟩

/-! Section: Leave-span membership (C2) -/

theorem contains_iff_mem {l : List String} {s : String} :
    l.contains s = true ↔ s ∈ l :=
  List.elem_iff

/-- An expanded-year slice (year ≥ 10000, leading '+') can never equal a
grid cell's iso string (four-digit year, leading decimal digit). -/
theorem isoSlice_expanded_ne_isoFor {a : CDate} {year m0 d : Nat}
    (hbig : 10000 ≤ a.y) (hy1 : 1000 ≤ year) (hy2 : year ≤ 9999) :
    isoSlice a ≠ isoFor year m0 d := by
  intro hcon
  unfold isoSlice at hcon
  rw [if_neg (by omega)] at hcon
  have hd := congrArg String.data hcon
  rw [isoFor] at hd
  dsimp only at hd
  rw [natChars_four hy1 hy2] at hd
  simp only [pad4c, List.cons_append, List.nil_append, List.cons.injEq] at hd
  exact absurd hd.1.symm (digitChar_ne_plus (year / 1000) (by omega))

theorem isoFor_mem_leaveDates {L : LeaveDoc} {f t : CDate}
    (hf : parseIso L.fromDate = some f) (ht : parseIso L.toDate = some t)
    {year m0 d : Nat} (hy1 : 1000 ≤ year) (hy2 : year ≤ 9999) (hm : m0 < 12)
    (hd1 : 1 ≤ d) (hd2 : d ≤ daysInMonth year (m0 + 1)) :
    isoFor year m0 d ∈ leaveDates L ↔
      dayNumber f ≤ dayNumber ⟨year, m0 + 1, d⟩ ∧
      dayNumber ⟨year, m0 + 1, d⟩ ≤ dayNumber t := by
  have hfv := parseIso_valid hf
  have htv := parseIso_valid ht
  have hcv : ValidDate ⟨year, m0 + 1, d⟩ :=
    ⟨by dsimp only; omega, by dsimp only; omega, hd1, hd2⟩
  unfold leaveDates
  rw [hf, ht]
  dsimp only
  by_cases hle : dayNumber f ≤ dayNumber t
  · rw [if_pos hle, List.mem_map]
    constructor
    · rintro ⟨i, hi, hiso⟩
      rw [List.mem_range] at hi
      have hadv : ValidDate (advance f i) := advance_valid hfv i
      have hdn : dayNumber (advance f i) = dayNumber f + i := dayNumber_advance hfv i
      by_cases hbig : (advance f i).y < 10000
      · rw [isoFor_eq_isoSlice hy1 hy2] at hiso
        have heq : advance f i = ⟨year, m0 + 1, d⟩ :=
          isoSlice_inj (by omega) (by dsimp only; omega) hadv.2.1 (by dsimp only; omega)
            (le_trans hadv.2.2.2 (daysInMonth_le _ _))
            (by dsimp only; exact le_trans hd2 (daysInMonth_le _ _)) hiso
        rw [heq] at hdn
        omega
      · exact absurd hiso (isoSlice_expanded_ne_isoFor (by omega) hy1 hy2)
    · rintro ⟨hlo, hhi⟩
      refine ⟨dayNumber ⟨year, m0 + 1, d⟩ - dayNumber f,
        by rw [List.mem_range]; omega, ?_⟩
      have hadv := advance_valid hfv (dayNumber ⟨year, m0 + 1, d⟩ - dayNumber f)
      have hdn := dayNumber_advance hfv (dayNumber ⟨year, m0 + 1, d⟩ - dayNumber f)
      have heq : advance f (dayNumber ⟨year, m0 + 1, d⟩ - dayNumber f) = ⟨year, m0 + 1, d⟩ :=
        dayNumber_inj hadv hcv (by omega)
      rw [heq, ← isoFor_eq_isoSlice hy1 hy2]
  · rw [if_neg hle]
    simp only [List.not_mem_nil, false_iff]
    rintro ⟨hlo, hhi⟩
    omega

/-- C2: a leave with parseable bounds attaches to exactly the non-blank cells
of the displayed month whose date lies in the inclusive span
[fromDate, toDate]; overlapping leaves accumulate since attachment is a
filter over the whole input list. -/
theorem c2_leave_attachment (year m0 : Nat) (atts : List AttendanceDoc)
    (lvs : List LeaveDoc) (hols : List Holiday) (L : LeaveDoc) (f t : CDate)
    (hy1 : 1000 ≤ year) (hy2 : year ≤ 9999) (hm : m0 < 12)
    (hf : parseIso L.fromDate = some f) (ht : parseIso L.toDate = some t) :
    ∀ c ∈ monthGrid year m0 atts lvs hols, ∀ d, c.dayNumber = some d →
      (L ∈ c.leaves ↔ L ∈ lvs ∧ dayNumber f ≤ dayNumber ⟨year, m0 + 1, d⟩ ∧
        dayNumber ⟨year, m0 + 1, d⟩ ≤ dayNumber t) := by
  intro c hc d hd
  rcases mem_monthGrid hc with rfl | ⟨d', h1, h2, rfl⟩
  · exact absurd hd (by simp [blankCell])
  · rw [attachCell_eq _ _ _ (isoFor_ne_empty _ _ _)] at hd ⊢
    dsimp only at hd ⊢
    obtain rfl : d' = d := Option.some.inj hd
    rw [List.mem_filter]
    rw [effYear_eq (by omega) hm, effMonth_eq hm] at h2
    constructor
    · rintro ⟨hmem, hcont⟩
      exact ⟨hmem, (isoFor_mem_leaveDates hf ht hy1 hy2 hm h1 h2).mp
        (contains_iff_mem.mp hcont)⟩
    · rintro ⟨hmem, hspan⟩
      exact ⟨hmem, contains_iff_mem.mpr
        ((isoFor_mem_leaveDates hf ht hy1 hy2 hm h1 h2).mpr hspan)⟩

/-- Witness for C2: the leave 2024-03-10 → 2024-03-12 attaches to the
2024-03-11 cell of March 2024 and not to the 2024-03-09 cell. -/
theorem c2_leave_attachment_witness :
    ((⟨"l1", "Casual Leave", "2024-03-10", "2024-03-12", "approved", none⟩ : LeaveDoc) ∈
      (⟨"2024-03-11", some 11, none,
        [⟨"l1", "Casual Leave", "2024-03-10", "2024-03-12", "approved", none⟩],
        none, false⟩ : DayInfo).leaves)
  ∧ ((⟨"l1", "Casual Leave", "2024-03-10", "2024-03-12", "approved", none⟩ : LeaveDoc) ∉
      (⟨"2024-03-09", some 9, none, [], none, false⟩ : DayInfo).leaves) := by
  have h := c2_leave_attachment 2024 2 []
    [⟨"l1", "Casual Leave", "2024-03-10", "2024-03-12", "approved", none⟩] []
    ⟨"l1", "Casual Leave", "2024-03-10", "2024-03-12", "approved", none⟩
    ⟨2024, 3, 10⟩ ⟨2024, 3, 12⟩ (by omega) (by omega) (by omega) (by decide) (by decide)
  have hmem11 : (⟨"2024-03-11", some 11, none,
      [⟨"l1", "Casual Leave", "2024-03-10", "2024-03-12", "approved", none⟩],
      none, false⟩ : DayInfo) ∈ monthGrid 2024 2 []
        [⟨"l1", "Casual Leave", "2024-03-10", "2024-03-12", "approved", none⟩] [] := by
    decide
  have hmem09 : (⟨"2024-03-09", some 9, none, [], none, false⟩ : DayInfo) ∈
      monthGrid 2024 2 []
        [⟨"l1", "Casual Leave", "2024-03-10", "2024-03-12", "approved", none⟩] [] := by
    decide
  constructor
  · exact (h _ hmem11 11 rfl).mpr ⟨by decide, by decide, by decide⟩
  · intro hcon
    have hspan := ((h _ hmem09 9 rfl).mp hcon).2.1
    exact absurd hspan (by decide)

/-! Section: Status-independence lemmas (C9) -/

theorem sameButStatus_refl (a : LeaveDoc) : sameButStatus a a :=
  ⟨rfl, rfl, rfl, rfl, rfl⟩

theorem leaveDates_congr {a b : LeaveDoc} (h : sameButStatus a b) :
    leaveDates a = leaveDates b := by
  obtain ⟨_, _, h3, h4, _⟩ := h
  unfold leaveDates
  rw [h3, h4]

theorem filter_forall₂ {R : LeaveDoc → LeaveDoc → Prop} {p q : LeaveDoc → Bool}
    {l1 l2 : List LeaveDoc} (hrel : List.Forall₂ R l1 l2)
    (hpq : ∀ a b, R a b → p a = q b) :
    List.Forall₂ R (l1.filter p) (l2.filter q) := by
  induction hrel with
  | nil => exact List.Forall₂.nil
  | cons hab hl ih =>
    rename_i a b l1' l2'
    rw [List.filter_cons, List.filter_cons]
    rw [← hpq a b hab]
    by_cases hp : p a = true
    · rw [if_pos hp, if_pos hp]
      exact List.Forall₂.cons hab ih
    · rw [if_neg hp, if_neg hp]
      exact ih

theorem map_type_congr {l1 l2 : List LeaveDoc}
    (hrel : List.Forall₂ sameButStatus l1 l2) :
    l1.map LeaveDoc.type = l2.map LeaveDoc.type := by
  induction hrel with
  | nil => rfl
  | cons hab hl ih =>
    rename_i a b l1' l2'
    simp only [List.map_cons, ih, hab.2.1]

theorem any_wfh_congr {l1 l2 : List LeaveDoc}
    (hrel : List.Forall₂ sameButStatus l1 l2) :
    l1.any (fun l => listContainsSub (toLowerStr l.type).data ("wfh").data) =
    l2.any (fun l => listContainsSub (toLowerStr l.type).data ("wfh").data) := by
  induction hrel with
  | nil => rfl
  | cons hab hl ih =>
    rename_i a b l1' l2'
    simp only [List.any_cons, ih, hab.2.1]

theorem getPriority_congr {c1 c2 : DayInfo} (hiso : c1.iso = c2.iso)
    (hatt : c1.attendance = c2.attendance) (hhol : c1.holiday = c2.holiday)
    (hsun : c1.isSunday = c2.isSunday)
    (hlv : List.Forall₂ sameButStatus c1.leaves c2.leaves) :
    getPriorityForDay c1 = getPriorityForDay c2 := by
  have hlen : c1.leaves.length = c2.leaves.length := hlv.length_eq
  unfold getPriorityForDay
  rw [hiso, hatt, hhol, hsun, hlen, map_type_congr hlv, any_wfh_congr hlv]

theorem attachCell_congr (hols : List Holiday) (atts : List AttendanceDoc)
    {lvs1 lvs2 : List LeaveDoc} (hrel : List.Forall₂ sameButStatus lvs1 lvs2)
    (cell : DayInfo) :
    cellObsEq (attachCell hols atts lvs1 cell) (attachCell hols atts lvs2 cell) := by
  by_cases h : cell.iso = ""
  · unfold attachCell
    rw [if_pos h, if_pos h]
    exact ⟨rfl, rfl, rfl, rfl, rfl, List.forall₂_same.mpr (fun x _ => sameButStatus_refl x),
      rfl⟩
  · rw [attachCell_eq hols atts lvs1 h, attachCell_eq hols atts lvs2 h]
    have hflt : List.Forall₂ sameButStatus
        (lvs1.filter (fun L => (leaveDates L).contains cell.iso))
        (lvs2.filter (fun L => (leaveDates L).contains cell.iso)) :=
      filter_forall₂ hrel (fun a b hab => by rw [leaveDates_congr hab])
    refine ⟨rfl, rfl, rfl, rfl, rfl, hflt, ?_⟩
    exact getPriority_congr rfl rfl rfl rfl hflt

theorem countP_congr_forall₂ {R : DayInfo → DayInfo → Prop} {p q : DayInfo → Bool}
    {l1 l2 : List DayInfo} (hrel : List.Forall₂ R l1 l2)
    (hpq : ∀ a b, R a b → p a = q b) :
    l1.countP p = l2.countP q := by
  induction hrel with
  | nil => rfl
  | cons hab hl ih =>
    rename_i a b l1' l2'
    rw [List.countP_cons, List.countP_cons, ih, hpq a b hab]

/-- C9: two runs whose leave inputs differ only in their status fields
produce observably identical grids (cellwise: same iso, attendance, holiday,
Sunday flag, status-variant leave lists, identical resolved priority) and
identical aggregate stats. -/
theorem c9_status_field_independent (year m0 : Nat) (atts : List AttendanceDoc)
    (hols : List Holiday) {lvs1 lvs2 : List LeaveDoc}
    (hrel : List.Forall₂ sameButStatus lvs1 lvs2) :
    List.Forall₂ cellObsEq (monthGrid year m0 atts lvs1 hols)
      (monthGrid year m0 atts lvs2 hols)
  ∧ stats (monthGrid year m0 atts lvs1 hols) = stats (monthGrid year m0 atts lvs2 hols) := by
  have hgrid : List.Forall₂ cellObsEq (monthGrid year m0 atts lvs1 hols)
      (monthGrid year m0 atts lvs2 hols) := by
    unfold monthGrid
    have hall : ∀ l : List DayInfo,
        List.Forall₂ cellObsEq (l.map (attachCell hols atts lvs1))
          (l.map (attachCell hols atts lvs2)) := by
      intro l
      induction l with
      | nil => exact List.Forall₂.nil
      | cons c l ih => exact List.Forall₂.cons (attachCell_congr hols atts hrel c) ih
    exact hall _
  refine ⟨hgrid, ?_⟩
  rw [stats_spec, stats_spec]
  have hobs : ∀ c1 c2, cellObsEq c1 c2 → resolvedType c1 = resolvedType c2 := by
    intro c1 c2 h
    unfold resolvedType
    rw [h.2.2.2.2.2.2]
  have hreal : ∀ c1 c2, cellObsEq c1 c2 → isRealCell c1 = isRealCell c2 := by
    intro c1 c2 h
    unfold isRealCell
    rw [h.1]
  congr 1
  · exact countP_congr_forall₂ hgrid (fun a b hab => hreal a b hab)
  · exact countP_congr_forall₂ hgrid
      (fun a b hab => by rw [hreal a b hab, hobs a b hab])
  · exact countP_congr_forall₂ hgrid
      (fun a b hab => by rw [hreal a b hab, hobs a b hab])
  · exact countP_congr_forall₂ hgrid
      (fun a b hab => by rw [hreal a b hab, hobs a b hab])
  · exact countP_congr_forall₂ hgrid
      (fun a b hab => by rw [hreal a b hab, hobs a b hab])
  · exact countP_congr_forall₂ hgrid
      (fun a b hab => by rw [hreal a b hab, hobs a b hab])
  · exact countP_congr_forall₂ hgrid
      (fun a b hab => by rw [hreal a b hab, hab.2.2.2.2.1])

/-- Witness for C9: approving or rejecting the same leave changes neither
the observable March 2024 grid nor its stats. -/
theorem c9_status_witness :
    List.Forall₂ cellObsEq
      (monthGrid 2024 2 []
        [⟨"l1", "Casual Leave", "2024-03-10", "2024-03-12", "approved", none⟩] [])
      (monthGrid 2024 2 []
        [⟨"l1", "Casual Leave", "2024-03-10", "2024-03-12", "rejected", none⟩] [])
  ∧ stats (monthGrid 2024 2 []
        [⟨"l1", "Casual Leave", "2024-03-10", "2024-03-12", "approved", none⟩] [])
      = stats (monthGrid 2024 2 []
        [⟨"l1", "Casual Leave", "2024-03-10", "2024-03-12", "rejected", none⟩] []) :=
  c9_status_field_independent 2024 2 [] []
    (List.Forall₂.cons ⟨rfl, rfl, rfl, rfl, rfl⟩ List.Forall₂.nil)

end WorkMatrix
